import Mathlib

/-!
Verification of the sound-masking audio engine.

This file gives a shallow embedding, over the rationals (the source's
floating-point decimal constants are exact rationals), of the parts of the
engine that the verified properties talk about:

* the `NoiseProcessor.process` render callback of `src/audio/AudioEngine.ts`
  (the embedded AudioWorklet string) and of the rumble-capable
  `noise-processor.ts` variant;
* the detection tick, baseline update and band-selection operations of
  `src/audio/ImpactDetector.ts`;
* the adaptive / reactive gain-control helpers and the EQ and density setters
  of `src/audio/AudioEngine.ts`;
* the pure settings mapping `AutoTuner.calculateSettings` of
  `src/audio/AutoTuner.ts`.

`Math.random()` outputs are modelled as an explicit stream of "white" samples
in `[-1, 1]`; the per-sample a-rate master gain is paired with each white
sample.  `Math.sin` (used only by the rumble oscillator bank, whose value
never feeds back into any state) is abstracted as a function parameter
`sinf`, and the irrational per-block phase increments `2*pi*f/sampleRate` and
the wrap constant `2*pi` are likewise passed as parameters; no verified
property depends on their values, only on `sinf` being bounded by 1.
`Math.cos`/`Math.sin` in the density crossfade are modelled by `Real.cos` /
`Real.sin`.
-/

namespace SoundMasking

/-- Recursive per-sample state of the noise processor: Kellet pink-noise
filter taps `b0`..`b6` plus the brown and dark leaky integrators
(constructor of `NoiseProcessor`, all fields initialised to 0). -/
structure NoiseState where
  b0 : ℚ
  b1 : ℚ
  b2 : ℚ
  b3 : ℚ
  b4 : ℚ
  b5 : ℚ
  b6 : ℚ
  lastBrown : ℚ
  lastDark : ℚ
deriving DecidableEq, Repr

/-- The zero state the worklet constructor establishes. -/
def initState : NoiseState :=
  { b0 := 0, b1 := 0, b2 := 0, b3 := 0, b4 := 0, b5 := 0, b6 := 0,
    lastBrown := 0, lastDark := 0 }

/-- The pink-noise block of `process` (executed only when `pGain > 0`):
updates taps `b0`..`b5`, forms the pink sample from the new taps plus the old
`b6`, then overwrites `b6`.  Returns the updated state and the pink sample. -/
def pinkStep (st : NoiseState) (white : ℚ) : NoiseState × ℚ :=
  let nb0 := 0.99886 * st.b0 + white * 0.0555179
  let nb1 := 0.99332 * st.b1 + white * 0.0750759
  let nb2 := 0.96900 * st.b2 + white * 0.1538520
  let nb3 := 0.86650 * st.b3 + white * 0.3104856
  let nb4 := 0.55000 * st.b4 + white * 0.5329522
  let nb5 := -0.7616 * st.b5 - white * 0.0168980
  let pink := nb0 + nb1 + nb2 + nb3 + nb4 + nb5 + st.b6 + white * 0.5362
  let nb6 := white * 0.115926
  ({ b0 := nb0, b1 := nb1, b2 := nb2, b3 := nb3, b4 := nb4, b5 := nb5,
     b6 := nb6, lastBrown := st.lastBrown, lastDark := st.lastDark }, pink)

/-- The brown integrator write `(lastBrown + 0.02 * white) / 1.02`, executed
on every sample regardless of the brown gain. -/
def brownNext (lastBrown white : ℚ) : ℚ := (lastBrown + 0.02 * white) / 1.02

/-- The dark integrator write `(lastDark + 0.005 * white) / 1.005`, executed
on every sample regardless of the dark gain. -/
def darkNext (lastDark white : ℚ) : ℚ := (lastDark + 0.005 * white) / 1.005

/-- The `mixedOutput` accumulator of the sample loop: starting from 0, each
noise color adds its contribution only when its gain is `> 0` (the
performance gates of the source). -/
def mixedSample (w p b d : ℚ) (white pink brownUpdate darkUpdate : ℚ) : ℚ :=
  let mixed1 := if w > 0 then 0 + white * w else 0
  let mixed2 := if p > 0 then mixed1 + (pink * 0.11) * p else mixed1
  let mixed3 := if b > 0 then mixed2 + (brownUpdate * 3.5) * b else mixed2
  if d > 0 then mixed3 + (darkUpdate * 4.0) * d else mixed3

/-- One iteration of the body of the inner sample loop of
`NoiseProcessor.process` (AudioEngine.ts variant, no rumble).  `white` is the
`Math.random() * 2 - 1` draw and `mGain` the per-sample master gain.  The
source accumulates `mixedOutput` through gain-gated `+=` statements
(`mixedSample`); the pink filter state is written only inside its gate,
while the brown and dark integrators are written outside their gates. -/
def sampleStep (w p b d : ℚ) (white mGain : ℚ) (st : NoiseState) : NoiseState × ℚ :=
  let pk := pinkStep st white
  let st1 := if p > 0 then pk.1 else st
  let brownUpdate := brownNext st1.lastBrown white
  let st2 := { st1 with lastBrown := brownUpdate }
  let darkUpdate := darkNext st2.lastDark white
  let st3 := { st2 with lastDark := darkUpdate }
  (st3, mixedSample w p b d white pk.2 brownUpdate darkUpdate * mGain)

/-- The sample loop of `process` over a block; each element of `samples` is a
`(white, masterGain)` pair. -/
def processGo (w p b d : ℚ) : List (ℚ × ℚ) → NoiseState → NoiseState × List ℚ
  | [], st => (st, [])
  | s :: ss, st =>
    let r := sampleStep w p b d s.1 s.2 st
    let rest := processGo w p b d ss r.1
    (rest.1, r.2 :: rest.2)

/-- `NoiseProcessor.process` (AudioEngine.ts variant): if all four k-rate
gains are exactly 0 the output is filled with zeros and no sample computation
runs; otherwise the sample loop runs.  Multi-channel rendering iterates the
same loop over each channel's samples sequentially, so a block here stands
for the concatenation of all channels of one render call. -/
def processBlock (w p b d : ℚ) (samples : List (ℚ × ℚ)) (st : NoiseState) :
    NoiseState × List ℚ :=
  if w = 0 ∧ p = 0 ∧ b = 0 ∧ d = 0 then (st, samples.map fun _ => 0)
  else processGo w p b d samples st

/-- State of the rumble-capable `noise-processor.ts` variant: the shared
noise state plus the three partial-oscillator phases and the AM-modulation
phase. -/
structure RumbleState where
  ns : NoiseState
  rumblePhase1 : ℚ
  rumblePhase2 : ℚ
  rumblePhase3 : ℚ
  rumbleModPhase : ℚ
deriving DecidableEq, Repr

/-- The zero rumble state of the worklet constructor. -/
def initStateR : RumbleState :=
  { ns := initState, rumblePhase1 := 0, rumblePhase2 := 0, rumblePhase3 := 0,
    rumbleModPhase := 0 }

/-- Phase wrapping of the rumble oscillators: subtract `2 * Math.PI` once
when the accumulated phase exceeds it. -/
def phaseWrap (twoPi q : ℚ) : ℚ := if q > twoPi then q - twoPi else q

/-- One iteration of the sample loop of the rumble-capable
`NoiseProcessor.process`.  `sinf` abstracts `Math.sin`; `twoPi` the wrap
constant `2 * Math.PI`; `inc1 inc2 inc3 modInc` the per-block phase
increments `2*pi*f/sampleRate` for the partials at `1.0x / 1.13x / 1.31x` of
the base frequency and for the AM modulator.  The four phase accumulators
advance and wrap only when the rumble gain is `> 0`. -/
def sampleStepR (sinf : ℚ → ℚ) (twoPi inc1 inc2 inc3 modInc : ℚ) (w p b d r : ℚ)
    (white mGain : ℚ) (st : RumbleState) : RumbleState × ℚ :=
  let pk := pinkStep st.ns white
  let ns1 := if p > 0 then pk.1 else st.ns
  let brownUpdate := brownNext ns1.lastBrown white
  let ns2 := { ns1 with lastBrown := brownUpdate }
  let darkUpdate := darkNext ns2.lastDark white
  let ns3 := { ns2 with lastDark := darkUpdate }
  let mixed4 := mixedSample w p b d white pk.2 brownUpdate darkUpdate
  if r > 0 then
    let q1 := phaseWrap twoPi (st.rumblePhase1 + inc1)
    let q2 := phaseWrap twoPi (st.rumblePhase2 + inc2)
    let q3 := phaseWrap twoPi (st.rumblePhase3 + inc3)
    let qm := phaseWrap twoPi (st.rumbleModPhase + modInc)
    let rumble := sinf q1 * 0.5 + sinf q2 * 0.3 + sinf q3 * 0.2
    let md := 1.0 + sinf qm * 0.3
    let rumble2 := rumble * md
    let mixed5 := mixed4 + rumble2 * r * 0.8
    ({ ns := ns3, rumblePhase1 := q1, rumblePhase2 := q2, rumblePhase3 := q3,
       rumbleModPhase := qm }, mixed5 * mGain)
  else
    ({ st with ns := ns3 }, mixed4 * mGain)

/-- Sample loop of the rumble-capable `process` over a block. -/
def processGoR (sinf : ℚ → ℚ) (twoPi inc1 inc2 inc3 modInc : ℚ) (w p b d r : ℚ) :
    List (ℚ × ℚ) → RumbleState → RumbleState × List ℚ
  | [], st => (st, [])
  | s :: ss, st =>
    let rr := sampleStepR sinf twoPi inc1 inc2 inc3 modInc w p b d r s.1 s.2 st
    let rest := processGoR sinf twoPi inc1 inc2 inc3 modInc w p b d r ss rr.1
    (rest.1, rr.2 :: rest.2)

/-- Rumble-capable `NoiseProcessor.process`: the silence short-circuit also
requires the rumble gain to be 0. -/
def processBlockR (sinf : ℚ → ℚ) (twoPi inc1 inc2 inc3 modInc : ℚ) (w p b d r : ℚ)
    (samples : List (ℚ × ℚ)) (st : RumbleState) : RumbleState × List ℚ :=
  if w = 0 ∧ p = 0 ∧ b = 0 ∧ d = 0 ∧ r = 0 then (st, samples.map fun _ => 0)
  else processGoR sinf twoPi inc1 inc2 inc3 modInc w p b d r samples st

/-- The brown integrator iterated over a stream of white samples (its
unconditional per-sample evolution). -/
def brownRun : List ℚ → ℚ → ℚ
  | [], x => x
  | wh :: ws, x => brownRun ws (brownNext x wh)

/-- The dark integrator iterated over a stream of white samples. -/
def darkRun : List ℚ → ℚ → ℚ
  | [], x => x
  | wh :: ws, x => darkRun ws (darkNext x wh)

/-- Invariant bounding every recursive state variable of the noise
processor; it holds for the all-zero initial state and is preserved by every
sample step driven by a white sample in `[-1, 1]`.  The numeric bounds are
slack fixed points of the individual recursions. -/
def NoiseStateBounded (st : NoiseState) : Prop :=
  |st.b0| ≤ 49 ∧ |st.b1| ≤ 12 ∧ |st.b2| ≤ 5 ∧ |st.b3| ≤ 3 ∧ |st.b4| ≤ 2 ∧
  |st.b5| ≤ 1 ∧ |st.b6| ≤ 1 ∧ |st.lastBrown| ≤ 1 ∧ |st.lastDark| ≤ 1

/-! ## ImpactDetector: detection tick, baseline, band selection -/

/-- `impactThreshold` computed each tick in `ImpactDetector.loop`:
`0.3 * (1.0 - sensitivity) + 0.05`. -/
def impactThreshold (sensitivity : ℚ) : ℚ := 0.3 * (1.0 - sensitivity) + 0.05

/-- The impact-firing part of one `ImpactDetector.loop` tick, taking the
tick's already-computed maximum per-band deviation as input.  First the
cooldown counter is decremented when positive (`Nat` subtraction), then an
impact fires when reactive detection is enabled, the (decremented) cooldown
is 0, and the deviation exceeds the threshold; firing emits intensity
`min(maxDeviation * 3, 1.0)` and sets the cooldown to
`MAX_IMPACT_COOLDOWN = 20`.  Returns the new cooldown and the emitted
intensity, if any. -/
def detTick (reactive : Bool) (sensitivity : ℚ) (cooldown : ℕ) (maxDeviation : ℚ) :
    ℕ × Option ℚ :=
  let cd1 := cooldown - 1
  if reactive = true ∧ cd1 = 0 ∧ impactThreshold sensitivity < maxDeviation then
    (20, some (min (maxDeviation * 3) 1))
  else
    (cd1, none)

/-- Iterated detection ticks over a list of per-tick maximum deviations,
returning the per-tick emitted events. -/
def runDet (reactive : Bool) (sensitivity : ℚ) : ℕ → List ℚ → List (Option ℚ)
  | _, [] => []
  | cd, dev :: devs =>
    let r := detTick reactive sensitivity cd dev
    r.2 :: runDet reactive sensitivity r.1 devs

/-- Expected firing pattern when every tick's deviation exceeds the
threshold: a tick fires exactly when its decremented cooldown is 0, and
firing rearms the cooldown at 20. -/
def firePattern : ℕ → ℕ → List Bool
  | _, 0 => []
  | cd, n + 1 =>
    let cd1 := cd - 1
    if cd1 = 0 then true :: firePattern 20 n else false :: firePattern cd1 n

/-- `ImpactDetector.updateBaseline`.  `stored` is the map entry for the band
(`none` when the band has never been observed).  The source reads it as
`this.baselineEnergies.get(bandId) || currentEnergy`: JavaScript `||` treats
the number `0` as falsy, so an absent entry and a stored `0` both fall back
to `currentEnergy`.  `BASELINE_SMOOTHING = 0.98`. -/
def updateBaseline (currentNoiseGain : ℚ) (stored : Option ℚ) (currentEnergy : ℚ) : ℚ :=
  let prevBaseline :=
    match stored with
    | none => currentEnergy
    | some v => if v = 0 then currentEnergy else v
  let noiseContribution := currentNoiseGain * 0.3
  let newBaseline :=
    if currentEnergy < prevBaseline then
      prevBaseline * 0.98 + currentEnergy * (1 - 0.98)
    else
      prevBaseline * 0.95 + currentEnergy * 0.05
  max newBaseline noiseContribution

/-- Band-selection state of `ImpactDetector`: the mode flag, the enabled band
ids (a set, modelled as a list) and the per-band baseline map (modelled as an
association list). -/
structure DetectorState where
  isSimpleMode : Bool
  enabledBandIds : List String
  baselineEnergies : List (String × ℚ)
deriving DecidableEq, Repr

/-- The `SIMPLE_MODES` catalog (id, band ids). -/
def SIMPLE_MODES : List (String × List String) :=
  [("footsteps_all", ["ultra_low", "footsteps", "light_impact"]),
   ("impact_all", ["ultra_low", "footsteps", "light_impact", "hard_impact"]),
   ("voice_all", ["voice_male", "voice_female"]),
   ("all", [])]

/-- `ImpactDetector.setSimpleMode`: sets the flag, clears the enabled set and
the baseline map, then fills the enabled set from the matching catalog
entry (if any). -/
def setSimpleMode (modeId : String) (_st : DetectorState) : DetectorState :=
  let base : DetectorState :=
    { isSimpleMode := true, enabledBandIds := [], baselineEnergies := [] }
  match SIMPLE_MODES.find? (fun m => m.1 == modeId) with
  | some m => { base with enabledBandIds := m.2 }
  | none => base

/-- `ImpactDetector.setDetailedMode`: clears the flag and the baseline map
and replaces the enabled set wholesale. -/
def setDetailedMode (bandIds : List String) (_st : DetectorState) : DetectorState :=
  { isSimpleMode := false, enabledBandIds := bandIds, baselineEnergies := [] }

/-- `ImpactDetector.toggleBand`: adds or removes one band id from the enabled
set.  The source touches nothing else - in particular it does not clear
`baselineEnergies`. -/
def toggleBand (bandId : String) (enabled : Bool) (st : DetectorState) : DetectorState :=
  if enabled then
    { st with enabledBandIds :=
        if bandId ∈ st.enabledBandIds then st.enabledBandIds
        else st.enabledBandIds ++ [bandId] }
  else
    { st with enabledBandIds := st.enabledBandIds.filter (fun x => x ≠ bandId) }

/-! ## AudioEngine: adaptive / reactive gain control, EQ, density -/

/-- `AudioEngine.handleAdaptiveUpdate`: in auto mode the adaptive target gain
becomes `min(noiseScore * 2, 0.4)`; otherwise the call returns early and the
target is unchanged. -/
def handleAdaptiveUpdate (isAutoMode : Bool) (currentTarget noiseScore : ℚ) : ℚ :=
  if isAutoMode then min (noiseScore * 2) 0.4 else currentTarget

/-- The multiplier the adaptive stage converges to for a given noise score:
`applyAdaptiveGain`'s formula `1.0 + adaptiveGain * 3` evaluated at the
target gain set by `handleAdaptiveUpdate`. -/
def adaptiveTargetMultiplier (noiseScore : ℚ) : ℚ :=
  1 + handleAdaptiveUpdate true 0 noiseScore * 3

/-- `AudioEngine.applyAdaptiveGain`: the multiplier `1.0 + adaptiveGain * 3`,
with the dead zone snapping any value below `1.10` to exactly `1.0`; the
result is the value scheduled onto the adaptive gain node. -/
def applyAdaptiveGain (adaptiveGain : ℚ) : ℚ :=
  let multiplier := 1 + adaptiveGain * 3
  if multiplier < 1.10 then 1 else multiplier

/-- One Web Audio automation call scheduled on a gain `AudioParam`. -/
inductive AutomationCmd where
  | cancelScheduledValues (t : ℚ)
  | setValueAtTime (v t : ℚ)
  | linearRampToValueAtTime (v t : ℚ)
  | exponentialRampToValueAtTime (v t : ℚ)
deriving DecidableEq, Repr

/-- `AudioEngine.handleReactiveImpact`: the automation commands scheduled on
the reactive gain node for one impact.  `curValue` is the node's current
instantaneous gain value (`this.reactiveGainNode.gain.value`).  The call
returns without scheduling anything when auto mode is off or reactive
detection is disabled. -/
def handleReactiveImpact (isAutoMode reactiveEnabled : Bool)
    (now curValue intensity strength duration : ℚ) : List AutomationCmd :=
  if isAutoMode = false ∨ reactiveEnabled = false then []
  else
    let boostMultiplier := 1.0 + intensity * strength * 3
    let holdTime := duration * 0.5
    let fadeTime := duration * 0.5
    [AutomationCmd.cancelScheduledValues now,
     AutomationCmd.setValueAtTime curValue now,
     AutomationCmd.linearRampToValueAtTime boostMultiplier (now + 0.1),
     AutomationCmd.setValueAtTime boostMultiplier (now + 0.1 + holdTime),
     AutomationCmd.exponentialRampToValueAtTime 1.0 (now + 0.1 + holdTime + fadeTime)]

/-- `AudioEngine.setEQBand` acting on the list of per-band gain targets: an
index outside `[0, eqGains.length)` returns early, leaving every band
unchanged; an in-range index schedules the new gain target on that band.
There is no guard on the gain value itself. -/
def setEQBand (bandIndex : ℤ) (gainDb : ℚ) (eqGains : List ℚ) : List ℚ :=
  if bandIndex < 0 ∨ (eqGains.length : ℤ) ≤ bandIndex then eqGains
  else eqGains.set bandIndex.toNat gainDb

/-- Dry-gain target of `AudioEngine.setDensity`: `Math.cos(value * 0.5 * Math.PI)`.
Modelled over the reals (hence not executable: real trigonometry). -/
noncomputable def densityDry (value : ℝ) : ℝ := Real.cos (value * 0.5 * Real.pi)

/-- Wet-gain target of `AudioEngine.setDensity`: `Math.sin(value * 0.5 * Math.PI)`. -/
noncomputable def densityWet (value : ℝ) : ℝ := Real.sin (value * 0.5 * Real.pi)

/-! ## AutoTuner -/

/-- The `mix` object returned by `AutoTuner.calculateSettings`: the four
noise-color gains, the rumble volume / base frequency / modulation speed, and
the sub-bass volume. -/
structure TunerMix where
  w : ℚ
  p : ℚ
  b : ℚ
  d : ℚ
  r : ℚ
  rf : ℚ
  rs : ℚ
  s : ℚ
deriving DecidableEq, Repr

/-- `AutoTuner.calculateSettings`: pure mapping from a target category and
three sliders in `[0, 100]` to a `mix` record and a 10-entry EQ gain list.
Defaults (`mix` all 0, rumble `{vol 0, freq 55, speed 1.0}`, sub `{vol 0}`,
eq all 0) apply to any field a category's branch does not overwrite, and to
unknown categories. -/
def calculateSettings (targetType : String) (pitch sharpness resonance : ℚ) :
    TunerMix × List ℚ :=
  let p := pitch / 100
  let s := sharpness / 100
  let r := resonance / 100
  if targetType = "footsteps" then
    ({ w := 0,
       p := if s > 0.6 then s - 0.6 else 0,
       b := 0.6 + r * 0.4,
       d := 0.2 + (1.0 - p) * 0.3,
       r := 0.5 + r * 0.5,
       rf := 40 + p * 40,
       rs := 0.5 + s * 2.0,
       s := 0 },
     [5 + r * 5, 3 + r * 3, 0, 0, 0, if s > 0.6 then 2 else 0, 0, 0, 0, 0])
  else if targetType = "voices" then
    ({ w := if s > 0.8 then (s - 0.8) * 0.5 else 0,
       p := 0.5 + s * 0.3,
       b := 0.3 + (1.0 - p) * 0.2,
       d := 0,
       r := 0.2,
       rf := 80,
       rs := 0.2,
       s := 0 },
     [0, 0, 2, 4 - p * 2, 4 + s * 2, 2 + s * 4, 0, 0, 0, 0])
  else if targetType = "traffic" then
    ({ w := 0,
       p := 0,
       b := 0.4 + p * 0.3,
       d := 0.6 + (1.0 - s) * 0.4,
       r := 0.4,
       rf := 50 + p * 50,
       rs := 0.1,
       s := 0 },
     [4, 3, 0, 0, 0, 0, 0, 0, 0, -5])
  else if targetType = "tinnitus" then
    ({ w := 0.3 + p * 0.7,
       p := 0.4 + (1.0 - p) * 0.6,
       b := 0,
       d := 0,
       r := 0,
       rf := 55,
       rs := 1.0,
       s := 0 },
     [0, 0, 0, 0, 0, 0, 2, 2, 2, 0])
  else
    ({ w := 0, p := 0, b := 0, d := 0, r := 0, rf := 55, rs := 1.0, s := 0 },
     [0, 0, 0, 0, 0, 0, 0, 0, 0, 0])

/-! ## Helper lemmas -/

/-- When every tick's deviation exceeds the threshold and reactive detection
is on, the firing pattern of the detection loop is `firePattern`. -/
lemma runDet_eq_firePattern (sensitivity : ℚ) (cd : ℕ) (devs : List ℚ)
    (h : ∀ x ∈ devs, impactThreshold sensitivity < x) :
    (runDet true sensitivity cd devs).map Option.isSome = firePattern cd devs.length := by
  induction devs generalizing cd with
  | nil => rfl
  | cons dev devs ih =>
    have hd : impactThreshold sensitivity < dev := h dev (List.mem_cons_self _ _)
    have ht : ∀ x ∈ devs, impactThreshold sensitivity < x :=
      fun x hx => h x (List.mem_cons_of_mem _ hx)
    by_cases hcd : cd - 1 = 0
    · simp [runDet, detTick, firePattern, hcd, hd, ih _ ht]
    · simp [runDet, detTick, firePattern, hcd, ih _ ht]

lemma abs_mul_le_of_le {x y X Y : ℚ} (hx : |x| ≤ X) (hy : |y| ≤ Y) : |x * y| ≤ X * Y := by
  rw [abs_mul]
  exact mul_le_mul hx hy (abs_nonneg y) ((abs_nonneg x).trans hx)

lemma abs_gated_acc {c : Prop} [Decidable c] {acc t A B : ℚ} (hacc : |acc| ≤ A)
    (ht : |t| ≤ B) (hB : 0 ≤ B) : |if c then acc + t else acc| ≤ A + B := by
  split
  · exact (abs_add acc t).trans (add_le_add hacc ht)
  · linarith

lemma abs_ite_le {c : Prop} [Decidable c] {x y B : ℚ} (hx : |x| ≤ B) (hy : |y| ≤ B) :
    |if c then x else y| ≤ B := by
  split <;> assumption

lemma pinkStep_fst_lastBrown (st : NoiseState) (white : ℚ) :
    (pinkStep st white).1.lastBrown = st.lastBrown := rfl

lemma pinkStep_fst_lastDark (st : NoiseState) (white : ℚ) :
    (pinkStep st white).1.lastDark = st.lastDark := rfl

lemma brownNext_bounded {lb wh : ℚ} (hl : |lb| ≤ 1) (hw : |wh| ≤ 1) :
    |brownNext lb wh| ≤ 1 := by
  obtain ⟨hl1, hl2⟩ := abs_le.mp hl
  obtain ⟨hw1, hw2⟩ := abs_le.mp hw
  rw [abs_le]
  unfold brownNext
  constructor
  · rw [le_div_iff₀ (by norm_num : (0:ℚ) < 1.02)]
    linarith
  · rw [div_le_iff₀ (by norm_num : (0:ℚ) < 1.02)]
    linarith

lemma darkNext_bounded {ld wh : ℚ} (hl : |ld| ≤ 1) (hw : |wh| ≤ 1) :
    |darkNext ld wh| ≤ 1 := by
  obtain ⟨hl1, hl2⟩ := abs_le.mp hl
  obtain ⟨hw1, hw2⟩ := abs_le.mp hw
  rw [abs_le]
  unfold darkNext
  constructor
  · rw [le_div_iff₀ (by norm_num : (0:ℚ) < 1.005)]
    linarith
  · rw [div_le_iff₀ (by norm_num : (0:ℚ) < 1.005)]
    linarith

lemma pinkStep_bounded {st : NoiseState} {white : ℚ} (h : NoiseStateBounded st)
    (hw : |white| ≤ 1) :
    NoiseStateBounded (pinkStep st white).1 ∧ |(pinkStep st white).2| ≤ 74 := by
  obtain ⟨h0, h1, h2, h3, h4, h5, h6, hB, hD⟩ := h
  rw [abs_le] at h0 h1 h2 h3 h4 h5 h6 hB hD hw
  unfold pinkStep NoiseStateBounded
  simp only []
  refine ⟨⟨?_, ?_, ?_, ?_, ?_, ?_, ?_, ?_, ?_⟩, ?_⟩ <;>
    (rw [abs_le]; constructor <;> linarith)

lemma mixedSample_bounded {w p b d white pink brownUpdate darkUpdate : ℚ}
    (hw1 : w ≤ 1) (hp1 : p ≤ 1) (hb1 : b ≤ 1) (hd1 : d ≤ 1)
    (hw0 : 0 ≤ w) (hp0 : 0 ≤ p) (hb0 : 0 ≤ b) (hd0 : 0 ≤ d)
    (hwh : |white| ≤ 1) (hpk : |pink| ≤ 74) (hbr : |brownUpdate| ≤ 1)
    (hdk : |darkUpdate| ≤ 1) :
    |mixedSample w p b d white pink brownUpdate darkUpdate| ≤ 167/10 := by
  have hgw : |w| ≤ 1 := abs_le.mpr ⟨by linarith, hw1⟩
  have hgp : |p| ≤ 1 := abs_le.mpr ⟨by linarith, hp1⟩
  have hgb : |b| ≤ 1 := abs_le.mpr ⟨by linarith, hb1⟩
  have hgd : |d| ≤ 1 := abs_le.mpr ⟨by linarith, hd1⟩
  have c011 : |(0.11 : ℚ)| = 0.11 := abs_of_pos (by norm_num)
  have c35 : |(3.5 : ℚ)| = 3.5 := abs_of_pos (by norm_num)
  have c40 : |(4.0 : ℚ)| = 4.0 := abs_of_pos (by norm_num)
  unfold mixedSample
  simp only []
  have hm1 : |if w > 0 then 0 + white * w else 0| ≤ 0 + 1 := by
    have : |(0 : ℚ)| ≤ 0 := by simp
    exact abs_gated_acc this (by simpa using abs_mul_le_of_le hwh hgw) (by norm_num)
  have ht2 : |(pink * 0.11) * p| ≤ (74 * 0.11) * 1 :=
    abs_mul_le_of_le (abs_mul_le_of_le hpk (le_of_eq c011)) hgp
  have hm2 : |if p > 0 then (if w > 0 then 0 + white * w else 0) + (pink * 0.11) * p
      else (if w > 0 then 0 + white * w else 0)| ≤ (0 + 1) + (74 * 0.11) * 1 :=
    abs_gated_acc hm1 ht2 (by norm_num)
  have ht3 : |(brownUpdate * 3.5) * b| ≤ (1 * 3.5) * 1 :=
    abs_mul_le_of_le (abs_mul_le_of_le hbr (le_of_eq c35)) hgb
  have hm3 : |if b > 0 then (if p > 0 then (if w > 0 then 0 + white * w else 0) +
      (pink * 0.11) * p else (if w > 0 then 0 + white * w else 0)) + (brownUpdate * 3.5) * b
      else (if p > 0 then (if w > 0 then 0 + white * w else 0) + (pink * 0.11) * p
      else (if w > 0 then 0 + white * w else 0))| ≤ ((0 + 1) + (74 * 0.11) * 1) + (1 * 3.5) * 1 :=
    abs_gated_acc hm2 ht3 (by norm_num)
  have ht4 : |(darkUpdate * 4.0) * d| ≤ (1 * 4.0) * 1 :=
    abs_mul_le_of_le (abs_mul_le_of_le hdk (le_of_eq c40)) hgd
  have hm4 := abs_gated_acc (c := d > 0) hm3 ht4 (by norm_num)
  calc |if d > 0 then (if b > 0 then (if p > 0 then (if w > 0 then 0 + white * w else 0) +
      (pink * 0.11) * p else (if w > 0 then 0 + white * w else 0)) + (brownUpdate * 3.5) * b
      else (if p > 0 then (if w > 0 then 0 + white * w else 0) + (pink * 0.11) * p
      else (if w > 0 then 0 + white * w else 0))) + (darkUpdate * 4.0) * d
      else (if b > 0 then (if p > 0 then (if w > 0 then 0 + white * w else 0) +
      (pink * 0.11) * p else (if w > 0 then 0 + white * w else 0)) + (brownUpdate * 3.5) * b
      else (if p > 0 then (if w > 0 then 0 + white * w else 0) + (pink * 0.11) * p
      else (if w > 0 then 0 + white * w else 0)))|
      ≤ (((0 + 1) + (74 * 0.11) * 1) + (1 * 3.5) * 1) + (1 * 4.0) * 1 := hm4
    _ ≤ 167/10 := by norm_num

lemma sampleStep_bounded {w p b d white mGain : ℚ} {st : NoiseState}
    (hw0 : 0 ≤ w) (hw1 : w ≤ 1) (hp0 : 0 ≤ p) (hp1 : p ≤ 1)
    (hbg0 : 0 ≤ b) (hbg1 : b ≤ 1) (hdg0 : 0 ≤ d) (hdg1 : d ≤ 1)
    (hwh : |white| ≤ 1) (hm0 : 0 ≤ mGain) (hm1 : mGain ≤ 1)
    (h : NoiseStateBounded st) :
    NoiseStateBounded (sampleStep w p b d white mGain st).1 ∧
    |(sampleStep w p b d white mGain st).2| ≤ 18 := by
  obtain ⟨hpk, hpv⟩ := pinkStep_bounded h hwh
  obtain ⟨p0, p1, p2, p3, p4, p5, p6, pB, pD⟩ := hpk
  obtain ⟨h0, h1, h2, h3, h4, h5, h6, hB, hD⟩ := h
  have hLB : (if p > 0 then (pinkStep st white).1 else st).lastBrown = st.lastBrown := by
    rw [apply_ite NoiseState.lastBrown, pinkStep_fst_lastBrown, ite_self]
  have hLD : (if p > 0 then (pinkStep st white).1 else st).lastDark = st.lastDark := by
    rw [apply_ite NoiseState.lastDark, pinkStep_fst_lastDark, ite_self]
  have hbu : |brownNext (if p > 0 then (pinkStep st white).1 else st).lastBrown white| ≤ 1 := by
    rw [hLB]; exact brownNext_bounded hB hwh
  have hdu : |darkNext (if p > 0 then (pinkStep st white).1 else st).lastDark white| ≤ 1 := by
    rw [hLD]; exact darkNext_bounded hD hwh
  have hmix := mixedSample_bounded hw1 hp1 hbg1 hdg1 hw0 hp0 hbg0 hdg0 hwh hpv hbu hdu
  constructor
  · unfold sampleStep NoiseStateBounded
    dsimp only []
    refine ⟨?_, ?_, ?_, ?_, ?_, ?_, ?_, hbu, hdu⟩ <;>
      (first
        | (rw [apply_ite NoiseState.b0]; exact abs_ite_le p0 h0)
        | (rw [apply_ite NoiseState.b1]; exact abs_ite_le p1 h1)
        | (rw [apply_ite NoiseState.b2]; exact abs_ite_le p2 h2)
        | (rw [apply_ite NoiseState.b3]; exact abs_ite_le p3 h3)
        | (rw [apply_ite NoiseState.b4]; exact abs_ite_le p4 h4)
        | (rw [apply_ite NoiseState.b5]; exact abs_ite_le p5 h5)
        | (rw [apply_ite NoiseState.b6]; exact abs_ite_le p6 h6))
  · unfold sampleStep
    dsimp only []
    have hmg : |mGain| ≤ 1 := abs_le.mpr ⟨by linarith, hm1⟩
    calc |mixedSample w p b d white (pinkStep st white).2
          (brownNext (if p > 0 then (pinkStep st white).1 else st).lastBrown white)
          (darkNext (if p > 0 then (pinkStep st white).1 else st).lastDark white) * mGain|
        ≤ 167/10 * 1 := abs_mul_le_of_le hmix hmg
      _ ≤ 18 := by norm_num

lemma sampleStepR_core (sinf : ℚ → ℚ) (twoPi inc1 inc2 inc3 modInc w p b d r : ℚ)
    (white mGain : ℚ) (st : RumbleState) :
    (sampleStepR sinf twoPi inc1 inc2 inc3 modInc w p b d r white mGain st).1.ns =
      (sampleStep w p b d white mGain st.ns).1 := by
  unfold sampleStepR sampleStep
  dsimp only []
  split <;> rfl

lemma rumble_term_bounded {sinf : ℚ → ℚ} (hsin : ∀ x, |sinf x| ≤ 1)
    (q1 q2 q3 qm r : ℚ) (hr0 : 0 ≤ r) (hr1 : r ≤ 1) :
    |(sinf q1 * 0.5 + sinf q2 * 0.3 + sinf q3 * 0.2) * (1.0 + sinf qm * 0.3) * r * 0.8|
      ≤ 26/25 := by
  have c05 : |(0.5 : ℚ)| = 0.5 := abs_of_pos (by norm_num)
  have c03 : |(0.3 : ℚ)| = 0.3 := abs_of_pos (by norm_num)
  have c02 : |(0.2 : ℚ)| = 0.2 := abs_of_pos (by norm_num)
  have c08 : |(0.8 : ℚ)| = 0.8 := abs_of_pos (by norm_num)
  have hr' : |r| ≤ 1 := abs_le.mpr ⟨by linarith, hr1⟩
  have hrum : |sinf q1 * 0.5 + sinf q2 * 0.3 + sinf q3 * 0.2| ≤ 1 := by
    calc |sinf q1 * 0.5 + sinf q2 * 0.3 + sinf q3 * 0.2|
        ≤ |sinf q1 * 0.5 + sinf q2 * 0.3| + |sinf q3 * 0.2| := abs_add _ _
      _ ≤ (|sinf q1 * 0.5| + |sinf q2 * 0.3|) + |sinf q3 * 0.2| :=
          add_le_add_right (abs_add _ _) _
      _ ≤ (1 * 0.5 + 1 * 0.3) + 1 * 0.2 :=
          add_le_add (add_le_add (abs_mul_le_of_le (hsin q1) (le_of_eq c05))
            (abs_mul_le_of_le (hsin q2) (le_of_eq c03)))
            (abs_mul_le_of_le (hsin q3) (le_of_eq c02))
      _ = 1 := by norm_num
  have hmd : |(1.0 : ℚ) + sinf qm * 0.3| ≤ 13/10 := by
    calc |(1.0 : ℚ) + sinf qm * 0.3| ≤ |(1.0 : ℚ)| + |sinf qm * 0.3| := abs_add _ _
      _ ≤ 1 + 1 * 0.3 :=
          add_le_add (by norm_num) (abs_mul_le_of_le (hsin qm) (le_of_eq c03))
      _ = 13/10 := by norm_num
  calc |(sinf q1 * 0.5 + sinf q2 * 0.3 + sinf q3 * 0.2) * (1.0 + sinf qm * 0.3) * r * 0.8|
      ≤ ((1 * (13/10)) * 1) * 0.8 :=
        abs_mul_le_of_le (abs_mul_le_of_le (abs_mul_le_of_le hrum hmd) hr') (le_of_eq c08)
    _ ≤ 26/25 := by norm_num

lemma sampleStepR_bounded {sinf : ℚ → ℚ} {twoPi inc1 inc2 inc3 modInc : ℚ}
    {w p b d r white mGain : ℚ} {st : RumbleState} (hsin : ∀ x, |sinf x| ≤ 1)
    (hw0 : 0 ≤ w) (hw1 : w ≤ 1) (hp0 : 0 ≤ p) (hp1 : p ≤ 1)
    (hbg0 : 0 ≤ b) (hbg1 : b ≤ 1) (hdg0 : 0 ≤ d) (hdg1 : d ≤ 1)
    (hr0 : 0 ≤ r) (hr1 : r ≤ 1)
    (hwh : |white| ≤ 1) (hm0 : 0 ≤ mGain) (hm1 : mGain ≤ 1)
    (h : NoiseStateBounded st.ns) :
    NoiseStateBounded
      (sampleStepR sinf twoPi inc1 inc2 inc3 modInc w p b d r white mGain st).1.ns ∧
    |(sampleStepR sinf twoPi inc1 inc2 inc3 modInc w p b d r white mGain st).2| ≤ 18 := by
  obtain ⟨hpk, hpv⟩ := pinkStep_bounded h hwh
  obtain ⟨p0, p1, p2, p3, p4, p5, p6, pB, pD⟩ := hpk
  obtain ⟨h0, h1, h2, h3, h4, h5, h6, hB, hD⟩ := h
  have hLB : (if p > 0 then (pinkStep st.ns white).1 else st.ns).lastBrown = st.ns.lastBrown := by
    rw [apply_ite NoiseState.lastBrown, pinkStep_fst_lastBrown, ite_self]
  have hLD : (if p > 0 then (pinkStep st.ns white).1 else st.ns).lastDark = st.ns.lastDark := by
    rw [apply_ite NoiseState.lastDark, pinkStep_fst_lastDark, ite_self]
  have hbu : |brownNext (if p > 0 then (pinkStep st.ns white).1 else st.ns).lastBrown white| ≤ 1 := by
    rw [hLB]; exact brownNext_bounded hB hwh
  have hdu : |darkNext (if p > 0 then (pinkStep st.ns white).1 else st.ns).lastDark white| ≤ 1 := by
    rw [hLD]; exact darkNext_bounded hD hwh
  have hmix := mixedSample_bounded hw1 hp1 hbg1 hdg1 hw0 hp0 hbg0 hdg0 hwh hpv hbu hdu
  have hmg : |mGain| ≤ 1 := abs_le.mpr ⟨by linarith, hm1⟩
  constructor
  · rw [sampleStepR_core]
    exact (sampleStep_bounded hw0 hw1 hp0 hp1 hbg0 hbg1 hdg0 hdg1 hwh hm0 hm1
      ⟨h0, h1, h2, h3, h4, h5, h6, hB, hD⟩).1
  · unfold sampleStepR
    dsimp only []
    rw [apply_ite Prod.snd]
    apply abs_ite_le
    · have hrt := rumble_term_bounded hsin (phaseWrap twoPi (st.rumblePhase1 + inc1))
        (phaseWrap twoPi (st.rumblePhase2 + inc2)) (phaseWrap twoPi (st.rumblePhase3 + inc3))
        (phaseWrap twoPi (st.rumbleModPhase + modInc)) r hr0 hr1
      calc |(mixedSample w p b d white (pinkStep st.ns white).2
            (brownNext (if p > 0 then (pinkStep st.ns white).1 else st.ns).lastBrown white)
            (darkNext (if p > 0 then (pinkStep st.ns white).1 else st.ns).lastDark white) +
            (sinf (phaseWrap twoPi (st.rumblePhase1 + inc1)) * 0.5 +
             sinf (phaseWrap twoPi (st.rumblePhase2 + inc2)) * 0.3 +
             sinf (phaseWrap twoPi (st.rumblePhase3 + inc3)) * 0.2) *
            (1.0 + sinf (phaseWrap twoPi (st.rumbleModPhase + modInc)) * 0.3) * r * 0.8) * mGain|
          ≤ (167/10 + 26/25) * 1 :=
            abs_mul_le_of_le ((abs_add _ _).trans (add_le_add hmix hrt)) hmg
        _ ≤ 18 := by norm_num
    · calc |mixedSample w p b d white (pinkStep st.ns white).2
            (brownNext (if p > 0 then (pinkStep st.ns white).1 else st.ns).lastBrown white)
            (darkNext (if p > 0 then (pinkStep st.ns white).1 else st.ns).lastDark white) * mGain|
          ≤ 167/10 * 1 := abs_mul_le_of_le hmix hmg
        _ ≤ 18 := by norm_num

lemma processGo_bounded {w p b d : ℚ}
    (hw0 : 0 ≤ w) (hw1 : w ≤ 1) (hp0 : 0 ≤ p) (hp1 : p ≤ 1)
    (hbg0 : 0 ≤ b) (hbg1 : b ≤ 1) (hdg0 : 0 ≤ d) (hdg1 : d ≤ 1)
    (samples : List (ℚ × ℚ)) (st : NoiseState) (h : NoiseStateBounded st)
    (hs : ∀ s ∈ samples, |s.1| ≤ 1 ∧ 0 ≤ s.2 ∧ s.2 ≤ 1) :
    NoiseStateBounded (processGo w p b d samples st).1 ∧
    ∀ y ∈ (processGo w p b d samples st).2, |y| ≤ 18 := by
  induction samples generalizing st with
  | nil => exact ⟨h, by simp [processGo]⟩
  | cons s ss ih =>
    obtain ⟨hw, hm0, hm1⟩ := hs s (List.mem_cons_self _ _)
    have hss : ∀ x ∈ ss, |x.1| ≤ 1 ∧ 0 ≤ x.2 ∧ x.2 ≤ 1 :=
      fun x hx => hs x (List.mem_cons_of_mem _ hx)
    obtain ⟨hst, hout⟩ :=
      sampleStep_bounded hw0 hw1 hp0 hp1 hbg0 hbg1 hdg0 hdg1 hw hm0 hm1 h
    obtain ⟨hst', hys⟩ := ih _ hst hss
    refine ⟨hst', ?_⟩
    intro y hy
    simp only [processGo, List.mem_cons] at hy
    rcases hy with rfl | hy
    · exact hout
    · exact hys y hy

lemma processGoR_bounded {sinf : ℚ → ℚ} {twoPi inc1 inc2 inc3 modInc : ℚ}
    {w p b d r : ℚ} (hsin : ∀ x, |sinf x| ≤ 1)
    (hw0 : 0 ≤ w) (hw1 : w ≤ 1) (hp0 : 0 ≤ p) (hp1 : p ≤ 1)
    (hbg0 : 0 ≤ b) (hbg1 : b ≤ 1) (hdg0 : 0 ≤ d) (hdg1 : d ≤ 1)
    (hr0 : 0 ≤ r) (hr1 : r ≤ 1)
    (samples : List (ℚ × ℚ)) (st : RumbleState) (h : NoiseStateBounded st.ns)
    (hs : ∀ s ∈ samples, |s.1| ≤ 1 ∧ 0 ≤ s.2 ∧ s.2 ≤ 1) :
    NoiseStateBounded
      (processGoR sinf twoPi inc1 inc2 inc3 modInc w p b d r samples st).1.ns ∧
    ∀ y ∈ (processGoR sinf twoPi inc1 inc2 inc3 modInc w p b d r samples st).2, |y| ≤ 18 := by
  induction samples generalizing st with
  | nil => exact ⟨h, by simp [processGoR]⟩
  | cons s ss ih =>
    obtain ⟨hw, hm0, hm1⟩ := hs s (List.mem_cons_self _ _)
    have hss : ∀ x ∈ ss, |x.1| ≤ 1 ∧ 0 ≤ x.2 ∧ x.2 ≤ 1 :=
      fun x hx => hs x (List.mem_cons_of_mem _ hx)
    obtain ⟨hst, hout⟩ :=
      sampleStepR_bounded hsin hw0 hw1 hp0 hp1 hbg0 hbg1 hdg0 hdg1 hr0 hr1 hw hm0 hm1 h
    obtain ⟨hst', hys⟩ := ih _ hst hss
    refine ⟨hst', ?_⟩
    intro y hy
    simp only [processGoR, List.mem_cons] at hy
    rcases hy with rfl | hy
    · exact hout
    · exact hys y hy

lemma initState_bounded : NoiseStateBounded initState := by
  unfold NoiseStateBounded initState
  norm_num

/-- With a zero pink gain the sample step leaves every pink filter tap
unchanged, while the brown and dark integrators advance unconditionally. -/
lemma sampleStep_pink_frozen {w p b d white mGain : ℚ} {st : NoiseState} (hp : p = 0) :
    (sampleStep w p b d white mGain st).1.b0 = st.b0 ∧
    (sampleStep w p b d white mGain st).1.b1 = st.b1 ∧
    (sampleStep w p b d white mGain st).1.b2 = st.b2 ∧
    (sampleStep w p b d white mGain st).1.b3 = st.b3 ∧
    (sampleStep w p b d white mGain st).1.b4 = st.b4 ∧
    (sampleStep w p b d white mGain st).1.b5 = st.b5 ∧
    (sampleStep w p b d white mGain st).1.b6 = st.b6 ∧
    (sampleStep w p b d white mGain st).1.lastBrown = brownNext st.lastBrown white ∧
    (sampleStep w p b d white mGain st).1.lastDark = darkNext st.lastDark white := by
  subst hp
  unfold sampleStep
  norm_num

lemma processGo_pink_frozen {w p b d : ℚ} (hp : p = 0) (samples : List (ℚ × ℚ))
    (st : NoiseState) :
    (processGo w p b d samples st).1.b0 = st.b0 ∧
    (processGo w p b d samples st).1.b1 = st.b1 ∧
    (processGo w p b d samples st).1.b2 = st.b2 ∧
    (processGo w p b d samples st).1.b3 = st.b3 ∧
    (processGo w p b d samples st).1.b4 = st.b4 ∧
    (processGo w p b d samples st).1.b5 = st.b5 ∧
    (processGo w p b d samples st).1.b6 = st.b6 ∧
    (processGo w p b d samples st).1.lastBrown =
      brownRun (samples.map Prod.fst) st.lastBrown ∧
    (processGo w p b d samples st).1.lastDark =
      darkRun (samples.map Prod.fst) st.lastDark := by
  subst hp
  induction samples generalizing st with
  | nil => exact ⟨rfl, rfl, rfl, rfl, rfl, rfl, rfl, rfl, rfl⟩
  | cons s ss ih =>
    obtain ⟨s0, s1, s2, s3, s4, s5, s6, sB, sD⟩ :=
      @sampleStep_pink_frozen w 0 b d s.1 s.2 st rfl
    obtain ⟨i0, i1, i2, i3, i4, i5, i6, iB, iD⟩ :=
      ih ((sampleStep w 0 b d s.1 s.2 st).1)
    refine ⟨i0.trans s0, i1.trans s1, i2.trans s2, i3.trans s3, i4.trans s4,
      i5.trans s5, i6.trans s6, ?_, ?_⟩
    · have hrun : brownRun ((s :: ss).map Prod.fst) st.lastBrown =
          brownRun (ss.map Prod.fst) (brownNext st.lastBrown s.1) := rfl
      rw [hrun, ← sB]
      exact iB
    · have hrun : darkRun ((s :: ss).map Prod.fst) st.lastDark =
          darkRun (ss.map Prod.fst) (darkNext st.lastDark s.1) := rfl
      rw [hrun, ← sD]
      exact iD

/-! ## Claim theorems -/

/-- Claim C1: in every render call in which the white, pink, brown and dark
gains (and, in the rumble-capable variant, the rumble gain) are all exactly
0, every output sample of every channel is exactly 0 (and the recursive
state is untouched); and for any gains in `[0, 1]`, white draws in `[-1, 1]`
and per-sample master gains in `[0, 1]`, every output sample produced from
the initial state has magnitude at most 18 - the real-valued computation is
uniformly bounded, so no NaN or infinity can ever be produced. -/
theorem noiseProcessor_silence_and_finite :
    (∀ (samples : List (ℚ × ℚ)) (st : NoiseState),
        processBlock 0 0 0 0 samples st = (st, samples.map fun _ => 0)) ∧
    (∀ (sinf : ℚ → ℚ) (twoPi inc1 inc2 inc3 modInc : ℚ) (samples : List (ℚ × ℚ))
        (st : RumbleState),
        processBlockR sinf twoPi inc1 inc2 inc3 modInc 0 0 0 0 0 samples st =
          (st, samples.map fun _ => 0)) ∧
    (∀ w p b d : ℚ, ∀ samples : List (ℚ × ℚ),
        0 ≤ w → w ≤ 1 → 0 ≤ p → p ≤ 1 → 0 ≤ b → b ≤ 1 → 0 ≤ d → d ≤ 1 →
        (∀ s ∈ samples, |s.1| ≤ 1 ∧ 0 ≤ s.2 ∧ s.2 ≤ 1) →
        ∀ y ∈ (processBlock w p b d samples initState).2, |y| ≤ 18) ∧
    (∀ (sinf : ℚ → ℚ) (twoPi inc1 inc2 inc3 modInc w p b d r : ℚ)
        (samples : List (ℚ × ℚ)),
        (∀ x, |sinf x| ≤ 1) →
        0 ≤ w → w ≤ 1 → 0 ≤ p → p ≤ 1 → 0 ≤ b → b ≤ 1 → 0 ≤ d → d ≤ 1 →
        0 ≤ r → r ≤ 1 →
        (∀ s ∈ samples, |s.1| ≤ 1 ∧ 0 ≤ s.2 ∧ s.2 ≤ 1) →
        ∀ y ∈ (processBlockR sinf twoPi inc1 inc2 inc3 modInc w p b d r samples
          initStateR).2, |y| ≤ 18) := by
  refine ⟨?_, ?_, ?_, ?_⟩
  · intro samples st
    simp [processBlock]
  · intro sinf twoPi inc1 inc2 inc3 modInc samples st
    simp [processBlockR]
  · intro w p b d samples hw0 hw1 hp0 hp1 hb0 hb1 hd0 hd1 hs y hy
    unfold processBlock at hy
    split at hy
    · simp only [List.mem_map] at hy
      obtain ⟨x, hx, rfl⟩ := hy
      norm_num
    · exact (processGo_bounded hw0 hw1 hp0 hp1 hb0 hb1 hd0 hd1 samples initState
        initState_bounded hs).2 y hy
  · intro sinf twoPi inc1 inc2 inc3 modInc w p b d r samples hsin
      hw0 hw1 hp0 hp1 hb0 hb1 hd0 hd1 hr0 hr1 hs y hy
    unfold processBlockR at hy
    split at hy
    · simp only [List.mem_map] at hy
      obtain ⟨x, hx, rfl⟩ := hy
      norm_num
    · exact (processGoR_bounded hsin hw0 hw1 hp0 hp1 hb0 hb1 hd0 hd1 hr0 hr1
        samples initStateR initState_bounded hs).2 y hy

/-- Witness for C1 at concrete inputs. -/
theorem noiseProcessor_silence_and_finite_witness :
    processBlock 0 0 0 0 [(1, 1)] initState = (initState, [0]) ∧
    (∀ y ∈ (processBlock 1 1 1 1 [(1, 1)] initState).2, |y| ≤ 18) ∧
    (∀ y ∈ (processBlockR (fun _ => 0) 7 1 1 1 1 1 1 1 1 1 [(1, 1)] initStateR).2,
      |y| ≤ 18) :=
  ⟨noiseProcessor_silence_and_finite.1 [(1, 1)] initState,
   noiseProcessor_silence_and_finite.2.2.1 1 1 1 1 [(1, 1)] (by decide) (by decide)
     (by decide) (by decide) (by decide) (by decide) (by decide) (by decide) (by decide),
   noiseProcessor_silence_and_finite.2.2.2 (fun _ => 0) 7 1 1 1 1 1 1 1 1 1 [(1, 1)]
     (fun x => by simp) (by decide) (by decide) (by decide) (by decide) (by decide)
     (by decide) (by decide) (by decide) (by decide) (by decide) (by decide)⟩

/-- Claim C2: a detection tick emits an impact event iff reactive detection
is enabled, no cooldown remains after the tick's decrement, and the maximum
per-band deviation exceeds `0.3 * (1 - sensitivity) + 0.05`; a firing tick
emits intensity `min(maxDeviation * 3, 1.0)` and rearms a 20-tick cooldown;
with sensitivity 1 the threshold is `1/20`, and any 40-tick deviation
sequence exceeding the threshold on every tick produces exactly two events,
at ticks 0 and 20. -/
theorem detector_impact_fire_and_cooldown (reactive : Bool) (sensitivity : ℚ)
    (cooldown : ℕ) (dev : ℚ) (devs : List ℚ)
    (hlen : devs.length = 40) (hdev : ∀ x ∈ devs, 1/20 < x) :
    (((detTick reactive sensitivity cooldown dev).2).isSome = true ↔
      (reactive = true ∧ cooldown - 1 = 0 ∧ impactThreshold sensitivity < dev)) ∧
    (reactive = true → cooldown - 1 = 0 → impactThreshold sensitivity < dev →
      detTick reactive sensitivity cooldown dev = (20, some (min (dev * 3) 1))) ∧
    impactThreshold 1 = 1/20 ∧
    (runDet true 1 0 devs).map Option.isSome =
      (List.range 40).map (fun i => decide (i = 0 ∨ i = 20)) := by
  have hthr : impactThreshold 1 = 1/20 := by
    unfold impactThreshold
    norm_num
  refine ⟨?_, ?_, hthr, ?_⟩
  · by_cases hc : reactive = true ∧ cooldown - 1 = 0 ∧ impactThreshold sensitivity < dev
    · simp [detTick, hc]
    · simp only [detTick, if_neg hc]
      simpa using hc
  · intro h1 h2 h3
    simp [detTick, h1, h2, h3]
  · have hdev' : ∀ x ∈ devs, impactThreshold 1 < x := by
      intro x hx
      rw [hthr]
      exact hdev x hx
    rw [runDet_eq_firePattern 1 0 devs hdev', hlen]
    decide

/-- Witness for C2 at a concrete 40-tick run. -/
theorem detector_impact_fire_and_cooldown_witness :
    (runDet true 1 0 (List.replicate 40 1)).map Option.isSome =
      (List.range 40).map (fun i => decide (i = 0 ∨ i = 20)) :=
  (detector_impact_fire_and_cooldown true 1 0 1 (List.replicate 40 1)
    (by simp)
    (fun x hx => by rw [List.eq_of_mem_replicate hx]; norm_num)).2.2.2

/-- Claim C3: in auto mode the adaptive stage's target multiplier is
`1.0 + min(noiseScore * 2, 0.4) * 3`, hence never exceeds `2.2`; and
whenever the follower's multiplier `1 + adaptiveGain * 3` is below `1.10`,
`applyAdaptiveGain` schedules exactly `1.0`. -/
theorem adaptive_target_multiplier_and_deadzone (noiseScore g : ℚ)
    (h : 1 + g * 3 < 11/10) :
    adaptiveTargetMultiplier noiseScore = 1 + min (noiseScore * 2) (2/5) * 3 ∧
    adaptiveTargetMultiplier noiseScore ≤ 11/5 ∧
    applyAdaptiveGain g = 1 := by
  have h04 : (0.4 : ℚ) = 2/5 := by norm_num
  refine ⟨?_, ?_, ?_⟩
  · simp [adaptiveTargetMultiplier, handleAdaptiveUpdate, h04]
  · have hm : min (noiseScore * 2) (2/5 : ℚ) ≤ 2/5 := min_le_right _ _
    simp only [adaptiveTargetMultiplier, handleAdaptiveUpdate, if_true, h04]
    nlinarith [hm]
  · have h' : 1 + g * 3 < (1.10 : ℚ) := by
      rw [show (1.10 : ℚ) = 11/10 by norm_num]
      exact h
    simp [applyAdaptiveGain, h']

/-- Witness for C3 at a concrete noise score and follower gain. -/
theorem adaptive_target_multiplier_and_deadzone_witness :
    adaptiveTargetMultiplier 0 = 1 + min ((0 : ℚ) * 2) (2/5) * 3 ∧
    adaptiveTargetMultiplier 0 ≤ 11/5 ∧
    applyAdaptiveGain 0 = 1 :=
  adaptive_target_multiplier_and_deadzone 0 0 (by norm_num)

/-- Claim C4 counterexample: a stored baseline of exactly 0 is falsy in
JavaScript, so `updateBaseline` treats it as absent and uses the current
energy (1) as the previous baseline, storing 1; the claimed formula
`max(baseline * 0.95 + energy * 0.05, 0.3 * noiseGain)` would store `1/20`. -/
theorem updateBaseline_zero_falsy_counterexample :
    updateBaseline 0 (some 0) 1 = 1 ∧
    max ((0 : ℚ) * 0.95 + 1 * 0.05) (0 * 0.3) = 1/20 ∧
    updateBaseline 0 (some 0) 1 ≠ max ((0 : ℚ) * 0.95 + 1 * 0.05) (0 * 0.3) := by
  have hval : updateBaseline 0 (some 0) 1 = 1 := by
    simp only [updateBaseline]
    norm_num
  have hclaim : max ((0 : ℚ) * 0.95 + 1 * 0.05) (0 * 0.3) = 1/20 := by
    rw [max_eq_left (by norm_num)]
    norm_num
  refine ⟨hval, hclaim, ?_⟩
  rw [hval, hclaim]
  norm_num

/-- Claim C4 amended: for every band whose stored baseline is nonzero, one
update step stores `max(if energy < baseline then baseline * 0.98 + energy * 0.02
else baseline * 0.95 + energy * 0.05, noiseGain * 0.3)` (a stored baseline of
exactly 0 is instead treated as absent, per JavaScript falsiness);
consequently, under energy above a baseline that sits at or above the floor,
the baseline rises strictly monotonically toward the energy with residual
factor `19/20` per step, while on the falling side the residual factor is
`49/50`, so the baseline rises faster than it falls. -/
theorem updateBaseline_step_and_monotone (g b e : ℚ) (hb : b ≠ 0) :
    updateBaseline g (some b) e =
      max (if e < b then b * 0.98 + e * 0.02 else b * 0.95 + e * 0.05) (g * 0.3) ∧
    (g * 0.3 ≤ b → b < e →
      b < updateBaseline g (some b) e ∧ updateBaseline g (some b) e ≤ e ∧
      e - updateBaseline g (some b) e = (e - b) * (19/20)) ∧
    (g * 0.3 ≤ e → e < b →
      updateBaseline g (some b) e - e = (b - e) * (49/50)) ∧
    (19/20 : ℚ) < 49/50 := by
  have hbase : updateBaseline g (some b) e =
      max (if e < b then b * 0.98 + e * (1 - 0.98) else b * 0.95 + e * 0.05) (g * 0.3) := by
    simp only [updateBaseline, if_neg hb]
  refine ⟨?_, ?_, ?_, by norm_num⟩
  · rw [hbase]
    split_ifs <;> norm_num
  · intro hfloor hbe
    have hnew : updateBaseline g (some b) e = b * 0.95 + e * 0.05 := by
      rw [hbase, if_neg (not_lt.mpr (le_of_lt hbe)), max_eq_left (by nlinarith)]
    refine ⟨by rw [hnew]; nlinarith, by rw [hnew]; nlinarith, by rw [hnew]; ring⟩
  · intro hfloor heb
    have hnew : updateBaseline g (some b) e = b * 0.98 + e * (1 - 0.98) := by
      rw [hbase, if_pos heb, max_eq_left (by nlinarith)]
    rw [hnew]
    ring

/-- Witness for C4 at concrete baseline and energy values. -/
theorem updateBaseline_step_and_monotone_witness :
    updateBaseline 0 (some (1/2)) 1 =
      max (if (1 : ℚ) < 1/2 then (1/2 : ℚ) * 0.98 + 1 * 0.02
        else (1/2 : ℚ) * 0.95 + 1 * 0.05) ((0 : ℚ) * 0.3) ∧
    ((0 : ℚ) * 0.3 ≤ 1/2 → (1/2 : ℚ) < 1 →
      (1/2 : ℚ) < updateBaseline 0 (some (1/2)) 1 ∧ updateBaseline 0 (some (1/2)) 1 ≤ 1 ∧
      1 - updateBaseline 0 (some (1/2)) 1 = (1 - 1/2) * (19/20)) ∧
    ((0 : ℚ) * 0.3 ≤ 1 → (1 : ℚ) < 1/2 →
      updateBaseline 0 (some (1/2)) 1 - 1 = (1/2 - 1) * (49/50)) ∧
    (19/20 : ℚ) < 49/50 :=
  updateBaseline_step_and_monotone 0 (1/2) 1 (by norm_num)

/-- Claim C5: on an impact in auto mode with reactive enabled, the reactive
stage first cancels pending automation, re-anchors at the gain node's
current instantaneous value (whatever it is - never a forced 1.0), ramps
linearly over 0.1 s to `1.0 + intensity * strength * 3`, holds that value
until `duration * 0.5` seconds after the ramp, then schedules an exponential
decay back to 1.0 over the remaining `duration * 0.5` seconds; with
strength 0.3, duration 10 and intensity 1.0 the scheduled peak is exactly
`19/10`. -/
theorem reactive_impact_envelope (now curValue intensity strength duration : ℚ) :
    handleReactiveImpact true true now curValue intensity strength duration =
      [AutomationCmd.cancelScheduledValues now,
       AutomationCmd.setValueAtTime curValue now,
       AutomationCmd.linearRampToValueAtTime (1 + intensity * strength * 3) (now + 1/10),
       AutomationCmd.setValueAtTime (1 + intensity * strength * 3)
         (now + 1/10 + duration * (1/2)),
       AutomationCmd.exponentialRampToValueAtTime 1
         (now + 1/10 + duration * (1/2) + duration * (1/2))] ∧
    AutomationCmd.linearRampToValueAtTime (19/10) (now + 1/10) ∈
      handleReactiveImpact true true now curValue 1 (3/10) 10 := by
  constructor
  · unfold handleReactiveImpact
    norm_num
  · unfold handleReactiveImpact
    norm_num

/-- Claim C6: `setDensity` uses the equal-power crossfade law
`dry = cos(d * pi/2)`, `wet = sin(d * pi/2)`, for which
`dry(d)^2 + wet(d)^2 = 1` for every density, with the endpoints
`(dry, wet) = (1, 0)` at `d = 0` and `(0, 1)` at `d = 1`. -/
theorem density_equal_power_crossfade (d : ℝ) (_h0 : 0 ≤ d) (_h1 : d ≤ 1) :
    densityDry d ^ 2 + densityWet d ^ 2 = 1 ∧
    densityDry 0 = 1 ∧ densityWet 0 = 0 ∧ densityDry 1 = 0 ∧ densityWet 1 = 1 := by
  refine ⟨Real.cos_sq_add_sin_sq _, ?_, ?_, ?_, ?_⟩
  · simp [densityDry]
  · simp [densityWet]
  · rw [densityDry, show (1 : ℝ) * 0.5 * Real.pi = Real.pi / 2 by ring,
      Real.cos_pi_div_two]
  · rw [densityWet, show (1 : ℝ) * 0.5 * Real.pi = Real.pi / 2 by ring,
      Real.sin_pi_div_two]

/-- Witness for C6 at density 0. -/
theorem density_equal_power_crossfade_witness :
    densityDry 0 ^ 2 + densityWet 0 ^ 2 = 1 ∧
    densityDry 0 = 1 ∧ densityWet 0 = 0 ∧ densityDry 1 = 0 ∧ densityWet 1 = 1 :=
  density_equal_power_crossfade 0 (le_refl 0) zero_le_one

/-- Claim C7 counterexample: `toggleBand` does not clear the baseline map -
on a state holding a baseline entry, toggling a band on leaves the map
intact, not empty. -/
theorem toggleBand_keeps_baselines_counterexample :
    (toggleBand "footsteps" true
      { isSimpleMode := true, enabledBandIds := [],
        baselineEnergies := [("all", 1/2)] }).baselineEnergies = [("all", 1/2)] ∧
    ¬ (toggleBand "footsteps" true
      { isSimpleMode := true, enabledBandIds := [],
        baselineEnergies := [("all", 1/2)] }).baselineEnergies = [] := by
  refine ⟨rfl, by simp [toggleBand]⟩

/-- Claim C7 amended: the mode setters `setSimpleMode` and `setDetailedMode`
clear all per-band baseline state for every prior state and argument, but
`toggleBand` leaves the baseline map exactly as it was. -/
theorem mode_change_clears_baselines (modeId : String) (bandIds : List String)
    (bandId : String) (enabled : Bool) (st : DetectorState) :
    (setSimpleMode modeId st).baselineEnergies = [] ∧
    (setDetailedMode bandIds st).baselineEnergies = [] ∧
    (toggleBand bandId enabled st).baselineEnergies = st.baselineEnergies := by
  refine ⟨?_, rfl, ?_⟩
  · unfold setSimpleMode
    cases SIMPLE_MODES.find? (fun m => m.1 == modeId) <;> rfl
  · unfold toggleBand
    split <;> rfl

/-- Claim C8 counterexample: in a render block with white gain 1 and brown
gain 0 (so not all gains are zero), the brown integrator state still
changes: from the initial state a single white draw of 1 moves `lastBrown`
from 0 to `1/51`. -/
theorem brown_state_advances_when_gated_counterexample :
    (processBlock 1 0 0 0 [(1, 1)] initState).1.lastBrown = 1/51 ∧
    (processBlock 1 0 0 0 [(1, 1)] initState).1.lastBrown ≠ initState.lastBrown := by
  have hval : (processBlock 1 0 0 0 [(1, 1)] initState).1.lastBrown = 1/51 := by
    simp only [processBlock, processGo, sampleStep, pinkStep, brownNext, darkNext,
      initState]
    norm_num
  exact ⟨hval, by rw [hval]; simp [initState]⟩

/-- Claim C8 amended: in a render block that is not silence-short-circuited,
a zero pink gain leaves the pink filter taps `b0`..`b6` unchanged (that
color's computation is skipped), but the brown and dark integrators advance
unconditionally on every sample - independent of their gains - because the
source writes them outside their gain gates; only their contribution to the
output is skipped. -/
theorem gated_color_state_effects (w p b d : ℚ) (samples : List (ℚ × ℚ))
    (st : NoiseState) (hp : p = 0) (hnz : ¬(w = 0 ∧ p = 0 ∧ b = 0 ∧ d = 0)) :
    ((processBlock w p b d samples st).1.b0 = st.b0 ∧
     (processBlock w p b d samples st).1.b1 = st.b1 ∧
     (processBlock w p b d samples st).1.b2 = st.b2 ∧
     (processBlock w p b d samples st).1.b3 = st.b3 ∧
     (processBlock w p b d samples st).1.b4 = st.b4 ∧
     (processBlock w p b d samples st).1.b5 = st.b5 ∧
     (processBlock w p b d samples st).1.b6 = st.b6) ∧
    (processBlock w p b d samples st).1.lastBrown =
      brownRun (samples.map Prod.fst) st.lastBrown ∧
    (processBlock w p b d samples st).1.lastDark =
      darkRun (samples.map Prod.fst) st.lastDark := by
  have hblock : processBlock w p b d samples st = processGo w p b d samples st := by
    unfold processBlock
    rw [if_neg hnz]
  rw [hblock]
  obtain ⟨a0, a1, a2, a3, a4, a5, a6, aB, aD⟩ := processGo_pink_frozen hp samples st
  exact ⟨⟨a0, a1, a2, a3, a4, a5, a6⟩, aB, aD⟩

/-- Witness for C8 amended at a concrete block. -/
theorem gated_color_state_effects_witness :
    (((processBlock 1 0 0 0 [(1, 1)] initState).1.b0 = initState.b0 ∧
      (processBlock 1 0 0 0 [(1, 1)] initState).1.b1 = initState.b1 ∧
      (processBlock 1 0 0 0 [(1, 1)] initState).1.b2 = initState.b2 ∧
      (processBlock 1 0 0 0 [(1, 1)] initState).1.b3 = initState.b3 ∧
      (processBlock 1 0 0 0 [(1, 1)] initState).1.b4 = initState.b4 ∧
      (processBlock 1 0 0 0 [(1, 1)] initState).1.b5 = initState.b5 ∧
      (processBlock 1 0 0 0 [(1, 1)] initState).1.b6 = initState.b6) ∧
     (processBlock 1 0 0 0 [(1, 1)] initState).1.lastBrown =
       brownRun ([(1, 1)].map Prod.fst) initState.lastBrown ∧
     (processBlock 1 0 0 0 [(1, 1)] initState).1.lastDark =
       darkRun ([(1, 1)].map Prod.fst) initState.lastDark) :=
  gated_color_state_effects 1 0 0 0 [(1, 1)] initState rfl (by decide)

/-- Claim C9 counterexample: `setEQBand` has no guard on the gain value - a
negative gain at a valid index is applied, not ignored, so the setter is not
a no-op for negative gains (EQ gains in dB are legitimately negative). -/
theorem setEQBand_negative_gain_counterexample :
    setEQBand 0 (-3) [0, 0, 0, 0, 0] = [-3, 0, 0, 0, 0] ∧
    setEQBand 0 (-3) [0, 0, 0, 0, 0] ≠ [0, 0, 0, 0, 0] := by
  decide

/-- Claim C9 amended: `setEQBand` is a no-op exactly for band indices
outside `[0, eqGains.length)` (and the guarded call never throws); for an
in-range index it sets that band's gain target to the given value, with no
guard on the gain value itself. -/
theorem setEQBand_index_guard (bandIndex : ℤ) (gainDb : ℚ) (eqGains : List ℚ) :
    (bandIndex < 0 ∨ (eqGains.length : ℤ) ≤ bandIndex →
      setEQBand bandIndex gainDb eqGains = eqGains) ∧
    (0 ≤ bandIndex → bandIndex < (eqGains.length : ℤ) →
      setEQBand bandIndex gainDb eqGains = eqGains.set bandIndex.toNat gainDb) := by
  constructor
  · intro h
    unfold setEQBand
    rw [if_pos h]
  · intro h1 h2
    unfold setEQBand
    rw [if_neg]
    push_neg
    exact ⟨h1, h2⟩

/-- Witness for C9 amended: an out-of-range index is a no-op, an in-range
index (with a negative gain) updates exactly that band. -/
theorem setEQBand_index_guard_witness :
    setEQBand 7 1 [0, 0, 0, 0, 0] = [0, 0, 0, 0, 0] ∧
    setEQBand 2 (-3) [0, 0, 0, 0, 0] = [0, 0, -3, 0, 0] :=
  ⟨(setEQBand_index_guard 7 1 [0, 0, 0, 0, 0]).1 (by decide),
   ((setEQBand_index_guard 2 (-3) [0, 0, 0, 0, 0]).2 (by decide) (by decide)).trans
     (by decide)⟩

set_option maxHeartbeats 1600000 in
/-- Claim C10: for every category string and sliders in `[0, 100]`,
`AutoTuner.calculateSettings` returns noise-color gains and a rumble gain in
`[0, 1]`, a rumble base frequency in `[20, 300]` Hz and a rumble modulation
speed in `[0.1, 10]` Hz - the NoiseMixState range invariant holds without
further clamping. -/
theorem autoTuner_output_in_range (targetType : String) (pitch sharpness resonance : ℚ)
    (hp0 : 0 ≤ pitch) (hp1 : pitch ≤ 100) (hs0 : 0 ≤ sharpness) (hs1 : sharpness ≤ 100)
    (hr0 : 0 ≤ resonance) (hr1 : resonance ≤ 100) :
    (0 ≤ (calculateSettings targetType pitch sharpness resonance).1.w ∧
      (calculateSettings targetType pitch sharpness resonance).1.w ≤ 1) ∧
    (0 ≤ (calculateSettings targetType pitch sharpness resonance).1.p ∧
      (calculateSettings targetType pitch sharpness resonance).1.p ≤ 1) ∧
    (0 ≤ (calculateSettings targetType pitch sharpness resonance).1.b ∧
      (calculateSettings targetType pitch sharpness resonance).1.b ≤ 1) ∧
    (0 ≤ (calculateSettings targetType pitch sharpness resonance).1.d ∧
      (calculateSettings targetType pitch sharpness resonance).1.d ≤ 1) ∧
    (0 ≤ (calculateSettings targetType pitch sharpness resonance).1.r ∧
      (calculateSettings targetType pitch sharpness resonance).1.r ≤ 1) ∧
    (20 ≤ (calculateSettings targetType pitch sharpness resonance).1.rf ∧
      (calculateSettings targetType pitch sharpness resonance).1.rf ≤ 300) ∧
    (1/10 ≤ (calculateSettings targetType pitch sharpness resonance).1.rs ∧
      (calculateSettings targetType pitch sharpness resonance).1.rs ≤ 10) := by
  have hpa : 0 ≤ pitch / 100 := by positivity
  have hpb : pitch / 100 ≤ 1 := by linarith
  have hsa : 0 ≤ sharpness / 100 := by positivity
  have hsb : sharpness / 100 ≤ 1 := by linarith
  have hra : 0 ≤ resonance / 100 := by positivity
  have hrb : resonance / 100 ≤ 1 := by linarith
  unfold calculateSettings
  split_ifs <;>
    refine ⟨⟨?_, ?_⟩, ⟨?_, ?_⟩, ⟨?_, ?_⟩, ⟨?_, ?_⟩, ⟨?_, ?_⟩, ⟨?_, ?_⟩, ⟨?_, ?_⟩⟩ <;>
    dsimp only [] <;> (try split_ifs) <;> linarith

/-- Witness for C10 at a concrete category and slider setting. -/
theorem autoTuner_output_in_range_witness :
    (0 ≤ (calculateSettings "voices" 50 50 50).1.w ∧
      (calculateSettings "voices" 50 50 50).1.w ≤ 1) ∧
    (0 ≤ (calculateSettings "voices" 50 50 50).1.p ∧
      (calculateSettings "voices" 50 50 50).1.p ≤ 1) ∧
    (0 ≤ (calculateSettings "voices" 50 50 50).1.b ∧
      (calculateSettings "voices" 50 50 50).1.b ≤ 1) ∧
    (0 ≤ (calculateSettings "voices" 50 50 50).1.d ∧
      (calculateSettings "voices" 50 50 50).1.d ≤ 1) ∧
    (0 ≤ (calculateSettings "voices" 50 50 50).1.r ∧
      (calculateSettings "voices" 50 50 50).1.r ≤ 1) ∧
    (20 ≤ (calculateSettings "voices" 50 50 50).1.rf ∧
      (calculateSettings "voices" 50 50 50).1.rf ≤ 300) ∧
    (1/10 ≤ (calculateSettings "voices" 50 50 50).1.rs ∧
      (calculateSettings "voices" 50 50 50).1.rs ≤ 10) :=
  autoTuner_output_in_range "voices" 50 50 50 (by decide) (by decide) (by decide)
    (by decide) (by decide) (by decide)

end SoundMasking
